import Mathlib

/-!
# Quick-filter panel (`src/libs/tools/filter.c`)

A shallow embedding of the non-GUI logic of the lighttable quick-filter panel:

* the text-filter encoding `_encode_text_filter` and its display inverse
  `_decode_text_filter`;
* the colour-label bitmask toggle `_colorlabel_clicked` together with
  `_update_colors_filter`;
* the debounce state machine `_launch_text_query` / `_text_entry_changed_wait`;
* the reset actions `_reset_text_entry`, `_reset_stars_filter`, `_lib_filter_reset`
  and the culling toggle `_culling_mode`.

Conventions.  A C string is the list of the characters that precede its
terminating NUL.  A 32-bit `int` used as a bit mask is its bit pattern, a
natural number below `2 ^ 32`.  Wall-clock times are integer milliseconds.
-/

namespace Filter

/-! ## Text filter: data model -/

/-- A C string, given as the characters before the terminating NUL. -/
abbrev CStr := List Char

/-- Length of a C string, `strlen(s)`. -/
def strlen (s : CStr) : Nat := s.length

/-- The read `s[i]` for `i ≤ strlen s`: a character of the text, or `none` when the
position holds the terminating NUL (so `if(s[i])` is `(charAt s i).isSome`). -/
def charAt (s : CStr) (i : Nat) : Option Char := s.get? i

/-- Embedding of `_encode_text_filter` (filter.c:165-187).  The result `none` is the
`NULL` pointer the C function returns when no branch assigns `text`.  `start` is the
two-byte buffer that is empty or holds `%`; `p` is `entry` or `entry + 1`; writing a
NUL at `text[strlen(text) - 1]` drops the last character. -/
def _encode_text_filter (entry : CStr) : Option CStr :=
  if strlen entry > 1 ∧ ¬ (charAt entry 0 = some '"' ∧ charAt entry 1 = some '"') then
    let p : CStr := if charAt entry 0 = some '"' then entry.drop 1 else entry
    let start : CStr :=
      if charAt entry 0 = some '"' then []
      else if (charAt entry 0).isSome then ['%'] else []
    if charAt entry (strlen entry - 1) = some '"' then
      some (start ++ p).dropLast
    else if (charAt entry 0).isSome then
      some (start ++ p ++ ['%'])
    else none
  else none

/-- Embedding of `_decode_text_filter` (filter.c:189-213).  `text1` is the duplicate of
`text`, `off` is the offset of `p` into `text1` (0 or 1); the NUL written at
`text1[strlen(text1) - 1]` shortens what `p` points to as well, since `p` points
into `text1`. -/
def _decode_text_filter (text : CStr) : CStr :=
  let text1 : CStr := text
  if (charAt text1 0).isSome then
    let off : Nat := if charAt text1 0 = some '%' then 1 else 0
    let start : CStr := if charAt text1 0 = some '%' then [] else ['"']
    if strlen text1 > 1 ∧ charAt text1 (strlen text1 - 1) = some '%' then
      start ++ (text1.dropLast).drop off
    else
      start ++ text1.drop off ++ ['"']
  else text1

/-! ## The collection object -/

/-- The collection object `darktable.collection`, as far as the panel reads and writes
it: the committed text filter (`none` is `NULL`), the colour-label mask (a 32-bit
pattern) and the number of `dt_collection_update_query` calls made so far. -/
structure Collection where
  text_filter : Option CStr
  colors_filter : Nat
  reloads : Nat
deriving DecidableEq, Repr

/-- Setter `dt_collection_set_text_filter`. -/
def dt_collection_set_text_filter (c : Collection) (text : Option CStr) : Collection :=
  { c with text_filter := text }

/-- Getter `dt_collection_get_text_filter`. -/
def dt_collection_get_text_filter (c : Collection) : Option CStr := c.text_filter

/-- Setter `dt_collection_set_colors_filter`. -/
def dt_collection_set_colors_filter (c : Collection) (mask : Nat) : Collection :=
  { c with colors_filter := mask }

/-- Getter `dt_collection_get_colors_filter`. -/
def dt_collection_get_colors_filter (c : Collection) : Nat := c.colors_filter

/-- The call `dt_collection_update_query(collection, DT_COLLECTION_CHANGE_RELOAD, ..)`,
recorded as one more reload request. -/
def dt_collection_update_query (c : Collection) : Collection :=
  { c with reloads := c.reloads + 1 }

/-! ## Colour-label mask -/

/-- Modelled from the spec: the enumerator `DT_COLORLABELS_LAST` is declared outside
this file; the spec has six slots 0..5, slot 5 being the "all colours" slot, and the
panel has `colors[6]`. -/
def DT_COLORLABELS_LAST : Nat := 5

/-- The macro `CL_AND_MASK` (filter.c:294), bit 31. -/
def CL_AND_MASK : Nat := 0x80000000

/-- The macro `CL_ALL_EXCLUDED` (filter.c:295), bits 12..17. -/
def CL_ALL_EXCLUDED : Nat := 0x3F000

/-- The macro `CL_ALL_INCLUDED` (filter.c:296), bits 0..5. -/
def CL_ALL_INCLUDED : Nat := 0x3F

/-- Bitwise complement `~x` of a 32-bit pattern. -/
def bnot32 (x : Nat) : Nat := 0xFFFFFFFF ^^^ x

/-- The button event, as far as the click handler inspects it: `ctrl` is the value of
`dt_modifier_is(e->state, GDK_CONTROL_MASK)` and `plain` the value of
`dt_modifier_is(e->state, 0)`; `dt_modifier_is` is declared outside this file. -/
structure GdkEventButton where
  ctrl : Bool
  plain : Bool
deriving DecidableEq, Repr

/-- A click with no modifier key. -/
def plainClick : GdkEventButton := ⟨false, true⟩

/-- A click with the Ctrl ("exclude") modifier. -/
def ctrlClick : GdkEventButton := ⟨true, false⟩

/-- A click with some other modifier combination (for instance Shift). -/
def otherClick : GdkEventButton := ⟨false, false⟩

/-- The `for` loop of `_update_colors_filter` (filter.c:305-315); the first numeric
argument is the number of iterations left, then `mask_excluded`, `mask_included` and
`nb`.  Only the count `nb` is kept, the repainting of the buttons is not modelled. -/
def update_colors_loop (mask : Nat) : Nat → Nat → Nat → Nat → Nat
  | 0, _, _, nb => nb
  | n + 1, mask_excluded, mask_included, nb =>
    update_colors_loop mask n (mask_excluded <<< 1) (mask_included <<< 1)
      (if mask &&& mask_excluded ≠ 0 ∨ mask &&& mask_included ≠ 0 then nb + 1 else nb)

/-- Embedding of `_update_colors_filter` (filter.c:298-321). -/
def _update_colors_filter (c : Collection) : Collection :=
  let mask := dt_collection_get_colors_filter c
  let nb := update_colors_loop mask (DT_COLORLABELS_LAST + 1) 0x1000 1 0
  if nb ≤ 1 then dt_collection_set_colors_filter c (mask ||| CL_AND_MASK) else c

/-- Embedding of `_colorlabel_clicked` (filter.c:328-356); `k` is the `colors_index` of
the clicked button. -/
def _colorlabel_clicked (c : Collection) (k : Nat) (e : GdkEventButton) : Collection :=
  let mask := dt_collection_get_colors_filter c
  let mask_k := (1 <<< k) ||| (1 <<< (k + 12))
  let c1 : Collection :=
    if k = DT_COLORLABELS_LAST then
      let mask_k :=
        if mask &&& mask_k ≠ 0 then 0
        else if e.ctrl then CL_ALL_EXCLUDED
        else if e.plain then CL_ALL_INCLUDED
        else mask_k
      dt_collection_set_colors_filter c (mask_k ||| (mask &&& CL_AND_MASK))
    else
      let mask_k :=
        if mask &&& mask_k ≠ 0 then 0
        else if e.ctrl then 1 <<< (k + 12)
        else if e.plain then 1 <<< k
        else mask_k
      dt_collection_set_colors_filter c
        ((mask &&& bnot32 ((1 <<< k) ||| (1 <<< (k + 12)))) ||| mask_k)
  dt_collection_update_query (_update_colors_filter c1)

/-- Slot `j` of mask `m` is active: its include bit `j` or its exclude bit `j + 12`
is set. -/
def slotActive (m j : Nat) : Bool := m.testBit j || m.testBit (j + 12)

/-- Number of active slots among 0..5. -/
def activeCount (m : Nat) : Nat := (List.range 6).countP (slotActive m)

/-- Mutual exclusion: no slot 0..5 has both its include and its exclude bit set. -/
def exclusive (m : Nat) : Prop :=
  ∀ j, j ≤ 5 → ¬ (m.testBit j = true ∧ m.testBit (j + 12) = true)

instance (m : Nat) : Decidable (exclusive m) := by
  unfold exclusive; infer_instance

/-- The value `_colorlabel_clicked` passes to `dt_collection_set_colors_filter`, before
`_update_colors_filter` runs. -/
def clicked_mask (mask k : Nat) (e : GdkEventButton) : Nat :=
  if k = DT_COLORLABELS_LAST then
    (if mask &&& ((1 <<< k) ||| (1 <<< (k + 12))) ≠ 0 then 0
      else if e.ctrl then CL_ALL_EXCLUDED
      else if e.plain then CL_ALL_INCLUDED
      else (1 <<< k) ||| (1 <<< (k + 12))) ||| (mask &&& CL_AND_MASK)
  else
    (mask &&& bnot32 ((1 <<< k) ||| (1 <<< (k + 12)))) |||
      (if mask &&& ((1 <<< k) ||| (1 <<< (k + 12))) ≠ 0 then 0
        else if e.ctrl then 1 <<< (k + 12)
        else if e.plain then 1 <<< k
        else (1 <<< k) ||| (1 <<< (k + 12)))

/-! ## Debounced text entry -/

/-- The panel data `dt_lib_tool_filter_t` (filter.c:34-46), with the two properties of
the entry widget `d->text` that the handlers use: its contents `text` and whether it
carries the `dt_dimmed` class.  `last_key_time` is in milliseconds. -/
structure dt_lib_tool_filter_t where
  time_out : Int
  last_key_time : Int
  zoom_level : Int
  text : CStr
  text_dimmed : Bool
deriving DecidableEq, Repr

/-- What the handlers act on: the panel data `self->data`, the collection and the
number of registered periodic calls of `_text_entry_changed_wait`. -/
structure World where
  d : dt_lib_tool_filter_t
  collection : Collection
  timers : Nat
deriving DecidableEq, Repr

/-- Embedding of `_set_widget_dimmed` (filter.c:158-163) for the entry `d->text`. -/
def _set_widget_dimmed (d : dt_lib_tool_filter_t) (dimmed : Bool) : dt_lib_tool_filter_t :=
  { d with text_dimmed := dimmed }

/-- Embedding of `_text_entry_changed_wait` (filter.c:215-249).  `clock` is the value
of `dt_get_wtime()` in milliseconds, so the test `clock - d->last_key_time >= 0.4`
reads `≥ 400`.  The second component is the returned `gboolean`. -/
def _text_entry_changed_wait (clock : Int) (w : World) : World × Bool :=
  if w.d.time_out ≠ 0 then
    let d1 : dt_lib_tool_filter_t := { w.d with time_out := w.d.time_out - 1 }
    let d2 : dt_lib_tool_filter_t :=
      if clock - d1.last_key_time ≥ 400 then { d1 with time_out := 1, last_key_time := clock }
      else d1
    if d2.time_out = 1 then
      ({ w with d := _set_widget_dimmed d2 true }, true)
    else if d2.time_out = 0 then
      let text := _encode_text_filter d2.text
      let coll : Collection :=
        if dt_collection_get_text_filter w.collection ≠ text then
          dt_collection_update_query (dt_collection_set_text_filter w.collection text)
        else w.collection
      ({ w with d := _set_widget_dimmed d2 false, collection := coll }, false)
    else ({ w with d := d2 }, true)
  else (w, true)

/-- Embedding of `_launch_text_query` (filter.c:251-261); `now` is `dt_get_wtime()` in
milliseconds and `g_timeout_add` registers one more periodic call. -/
def _launch_text_query (now : Int) (w : World) : World :=
  let d1 : dt_lib_tool_filter_t := { w.d with last_key_time := now }
  if d1.time_out = 0 then
    { w with d := { d1 with time_out := 15 }, timers := w.timers + 1 }
  else { w with d := d1 }

/-- Embedding of `_text_entry_changed` (filter.c:263-266). -/
def _text_entry_changed (now : Int) (w : World) : World := _launch_text_query now w

/-- What the main loop delivers to the panel: a keystroke at time `now` after which the
entry holds `text`, or the expiry of the 100 ms period at time `now`. -/
inductive Event where
  | key (now : Int) (text : CStr)
  | tick (now : Int)
deriving DecidableEq, Repr

/-- Delivery of one event.  A keystroke updates the entry and calls
`_text_entry_changed`.  A tick calls `_text_entry_changed_wait` if it is registered,
and unregisters it when it returns `FALSE`; the returned value is reported. -/
def dispatch (w : World) : Event → World × Option Bool
  | .key now text => (_text_entry_changed now { w with d := { w.d with text := text } }, none)
  | .tick now =>
    if w.timers = 0 then (w, none)
    else
      let r := _text_entry_changed_wait now w
      (if r.2 then r.1 else { r.1 with timers := r.1.timers - 1 }, some r.2)

/-- Delivery of a list of events; the second component lists, in order, what the calls
of the tick handler returned. -/
def run (w : World) : List Event → World × List Bool
  | [] => (w, [])
  | ev :: evs =>
    let r := dispatch w ev
    let rest := run r.1 evs
    (rest.1, match r.2 with
      | some b => b :: rest.2
      | none => rest.2)

/-- The panel right after `gui_init` with an empty entry: countdown 0, no periodic call
registered, no text filter committed. -/
def idle_world : World :=
  { d := { time_out := 0, last_key_time := 0, zoom_level := 0, text := [],
           text_dimmed := false },
    collection := { text_filter := none, colors_filter := 0x80000000, reloads := 0 },
    timers := 0 }

/-- A burst of typing that stops 1.05 s after its first keystroke: keystrokes at 0,
350, 690 and 1050 ms, and the ticks at 100, 200, ..., 1600 ms. -/
def late_pause_trace : List Event :=
  [ .key 0 ['a'], .tick 100, .tick 200, .tick 300,
    .key 350 ['a', 'b'], .tick 400, .tick 500, .tick 600,
    .key 690 ['a', 'b', 'c'], .tick 700, .tick 800, .tick 900, .tick 1000,
    .key 1050 ['a', 'b', 'c', 'd'], .tick 1100, .tick 1200, .tick 1300, .tick 1400,
    .tick 1500, .tick 1600 ]

/-- One keystroke at time 0 that leaves `text` in the entry, followed by the first `n`
ticks, at 100, 200, ... ms. -/
def single_key_trace (text : CStr) (n : Nat) : List Event :=
  .key 0 text :: (List.range n).map (fun i => Event.tick (100 * ((i : Int) + 1)))

/-- One period of continuous typing: a keystroke at `100 * i` ms that leaves `text` in
the entry, followed by the tick at `100 * (i + 1)` ms. -/
def typing_round (i : Nat) (text : CStr) : List Event :=
  [Event.key (100 * (i : Int)) text, Event.tick (100 * ((i : Int) + 1))]

/-- Continuous typing for `n` periods, the `i`-th keystroke leaving `texts i` in the
entry. -/
def continuous_typing_trace (texts : Nat → CStr) : Nat → List Event
  | 0 => []
  | n + 1 => continuous_typing_trace texts n ++ typing_round n (texts n)

/-- The collection left by the commit branch of `_text_entry_changed_wait`
(filter.c:235-243) when the entry holds `text`. -/
def committed (c : Collection) (text : CStr) : Collection :=
  if dt_collection_get_text_filter c ≠ _encode_text_filter text then
    dt_collection_update_query (dt_collection_set_text_filter c (_encode_text_filter text))
  else c

/-- The decoding as the specification words it: a double quote if the pattern does not
start with `%`, then the pattern with one leading `%` removed if present and one
trailing `%` removed if present, then a double quote if the pattern does not end with
`%`. -/
def decode_described (t : CStr) : CStr :=
  let body1 : CStr := if t.head? = some '%' then t.tail else t
  let body2 : CStr := if body1.getLast? = some '%' then body1.dropLast else body1
  (if t.head? = some '%' then [] else ['"']) ++ body2 ++
    (if t.getLast? = some '%' then [] else ['"'])

/-! ## Reset actions -/

/-- The toolkit call `gtk_entry_set_text(GTK_ENTRY(d->text), "")` on the search entry.
Nothing happens when the entry is already empty.  Otherwise the entry is emptied and,
its text now being empty, the search entry emits `search-changed` within the call;
the handler connected to that signal is `_text_entry_changed` (filter.c:525), which
reads the clock `now`. -/
def gtk_entry_set_text_empty (now : Int) (w : World) : World :=
  if w.d.text = [] then w
  else _text_entry_changed now { w with d := { w.d with text := [] } }

/-- Embedding of `_reset_text_filter` (filter.c:268-273): the committed filter becomes
the empty string `strdup("")`, which is not `NULL`, then the entry is emptied through
`gtk_entry_set_text`; `now` is the value of `dt_get_wtime()` during the call. -/
def _reset_text_filter (now : Int) (w : World) : World :=
  let w1 : World :=
    { w with collection := dt_collection_set_text_filter w.collection (some []) }
  gtk_entry_set_text_empty now w1

/-- Embedding of `_reset_text_entry` (filter.c:275-279). -/
def _reset_text_entry (now : Int) (w : World) : World :=
  let w1 := _reset_text_filter now w
  { w1 with collection := dt_collection_update_query w1.collection }

/-- Embedding of `_reset_colors_filter` (filter.c:323-326). -/
def _reset_colors_filter (c : Collection) : Collection :=
  dt_collection_set_colors_filter c CL_AND_MASK

/-- The glib macro `MIN(a, b)`, that is `((a) < (b)) ? (a) : (b)`. -/
def MIN (a b : Int) : Int := if a < b then a else b

/-- The glib macro `MAX(a, b)`, that is `((a) > (b)) ? (a) : (b)`, on unsigned values. -/
def MAX (a b : Nat) : Nat := if a > b then a else b

/-- Embedding of `_reset_stars_filter` (filter.c:691-721).  `stars` is the current
selection of the rating dropdown, `dt_bauhaus_combobox_get(d->stars)`; the result is
the item passed to `dt_bauhaus_combobox_set(d->stars, ..)`. -/
def _reset_stars_filter (stars : Int) (smart_filter : Bool) : Int :=
  if smart_filter = true then
    let initial_rating : Int := 0
    let current_filter : Int := stars
    let current_filter_rating : Int :=
      if current_filter ≥ 2 ∧ current_filter ≤ 6 then current_filter - 1 else 0
    let new_filter_rating : Int := MIN initial_rating current_filter_rating
    let new_filter : Int :=
      if new_filter_rating ≥ 1 ∧ new_filter_rating ≤ 5 then new_filter_rating + 1
      else new_filter_rating
    new_filter
  else 0

/-- Embedding of `_lib_filter_reset` (filter.c:723-728): the new selection of the rating
dropdown and the new state of the panel and collection. -/
def _lib_filter_reset (now : Int) (stars : Int) (w : World) (smart_filter : Bool) :
    Int × World :=
  let stars1 := _reset_stars_filter stars smart_filter
  let w1 := _reset_text_filter now w
  (stars1, { w1 with collection := _reset_colors_filter w1.collection })

/-! ## Culling mode -/

/-- The globals `_culling_mode` acts on besides the panel data and the collection:
the flag `darktable.gui->culling_mode` and the lighttable zoom level held by the view
manager. -/
structure Lighttable where
  culling_mode : Bool
  zoom : Int
deriving DecidableEq, Repr

/-- Getter `dt_view_lighttable_get_zoom`. -/
def dt_view_lighttable_get_zoom (lt : Lighttable) : Int := lt.zoom

/-- Setter `dt_view_lighttable_set_zoom`. -/
def dt_view_lighttable_set_zoom (lt : Lighttable) (zoom : Int) : Lighttable :=
  { lt with zoom := zoom }

/-- Embedding of `_culling_mode` (filter.c:358-389).  `active` is the state of the
toggle button and `selected_count` the value of `dt_collection_get_selected_count`, an
unsigned 32-bit number.  `dt_culling_mode_to_selection`, declared outside this file,
acts on the selection only, which is not part of the modelled state; the raised signal
is not modelled. -/
def _culling_mode (active : Bool) (selected_count : Nat) (d : dt_lib_tool_filter_t)
    (lt : Lighttable) (c : Collection) : dt_lib_tool_filter_t × Lighttable × Collection :=
  if active then
    let lt1 : Lighttable := { lt with culling_mode := true }
    let d1 : dt_lib_tool_filter_t := { d with zoom_level := dt_view_lighttable_get_zoom lt1 }
    let selected_pictures : Nat := MAX selected_count 1
    let zoom_level : Int :=
      if selected_pictures < 7 then (selected_pictures : Int)
      else if selected_pictures < 9 then 4
      else 6
    (d1, dt_view_lighttable_set_zoom lt1 zoom_level, dt_collection_update_query c)
  else
    let lt1 : Lighttable := { lt with culling_mode := false }
    (d, dt_view_lighttable_set_zoom lt1 d.zoom_level, dt_collection_update_query c)

/-! ## Text filter: auxiliary lemmas -/

theorem exists_cons_concat (x : CStr) (h : 1 < x.length) :
    ∃ a m b, x = a :: (m ++ [b]) := by
  cases x with
  | nil => simp at h
  | cons a t =>
    rcases List.eq_nil_or_concat t with ht | ⟨m, b, ht⟩
    · subst ht; simp at h
    · exact ⟨a, m, b, by rw [ht]; simp⟩

theorem charAt_cons_zero (a : Char) (t : CStr) : charAt (a :: t) 0 = some a := rfl

theorem charAt_last (a : Char) (m : CStr) (b : Char) :
    charAt (a :: (m ++ [b])) (strlen (a :: (m ++ [b])) - 1) = some b := by
  simp [charAt, strlen]

theorem strlen_cons_concat (a : Char) (m : CStr) (b : Char) :
    strlen (a :: (m ++ [b])) > 1 := by
  simp [strlen]

theorem getLast?_cons_concat (a : Char) (m : CStr) (b : Char) :
    (a :: (m ++ [b])).getLast? = some b := by
  rw [← List.cons_append, List.getLast?_append]; simp

theorem dropLast_cons_concat (a : Char) (m : CStr) (b : Char) :
    (a :: (m ++ [b])).dropLast = a :: m := by
  rw [← List.cons_append, List.dropLast_concat]

theorem dropLast_cons_cons_concat (c a : Char) (m : CStr) (b : Char) :
    (c :: a :: (m ++ [b])).dropLast = c :: a :: m := by
  rw [← List.cons_append, ← List.cons_append, List.dropLast_concat]

theorem charAt_one_cons_concat (a : Char) (m : CStr) (b : Char) :
    charAt (a :: (m ++ [b])) 1 = (m ++ [b]).head? := by
  cases m <;> rfl

/-- Closed form of the encoder on a text of at least two characters, written as a
first character `a`, a middle part `m` and a last character `b`. -/
theorem encode_cons_concat (a : Char) (m : CStr) (b : Char) :
    _encode_text_filter (a :: (m ++ [b])) =
      if a = '"' ∧ (m ++ [b]).head? = some '"' then none
      else some ((if a = '"' then [] else ['%', a]) ++ m ++
                 (if b = '"' then [] else [b, '%'])) := by
  unfold _encode_text_filter
  rw [charAt_last, charAt_one_cons_concat]
  by_cases ha : a = '"' <;> by_cases hb : b = '"' <;>
    by_cases hm : (m ++ [b]).head? = some '"' <;>
    simp only [charAt_cons_zero, strlen_cons_concat, ha, hb, hm, List.dropLast_concat,
      dropLast_cons_concat, dropLast_cons_cons_concat, List.drop_succ_cons, List.drop_zero,
      List.nil_append, List.cons_append, List.append_assoc, List.append_nil,
      Option.isSome_some, if_true, if_false, true_and, and_true, not_true, not_false_eq_true,
      and_self, and_false, false_and, gt_iff_lt, reduceCtorEq, Option.some.injEq, ite_not]

/-- Closed form of the decoder on a non-empty pattern `a :: r`. -/
theorem decode_cons (a : Char) (r : CStr) :
    _decode_text_filter (a :: r) =
      (if a = '%' then [] else ['"', a]) ++
      (if r ≠ [] ∧ r.getLast? = some '%' then r.dropLast else r ++ ['"']) := by
  unfold _decode_text_filter
  rcases List.eq_nil_or_concat r with hr | ⟨m, b, hr⟩
  · subst hr
    by_cases ha : a = '%' <;> simp [charAt, strlen, ha]
  · have hr2 : r = m ++ [b] := by rw [hr]; simp
    clear hr
    subst hr2
    dsimp only
    rw [charAt_last]
    by_cases ha : a = '%' <;> by_cases hb : b = '%' <;>
      simp [charAt_cons_zero, strlen_cons_concat, ha, hb, List.dropLast_concat,
        dropLast_cons_concat]

/-! ## Text filter: encoding -/

/-- C1 (counterexample): the one-character text `a` is non-empty and has no quote at
either end, yet the encoder returns no pattern for it instead of `%a%`, because of
the guard `strlen(entry) > 1`. -/
theorem encode_single_char_no_pattern :
    (['a'] : CStr) ≠ [] ∧ (['a'] : CStr).head? ≠ some '"' ∧
      (['a'] : CStr).getLast? ≠ some '"' ∧
      _encode_text_filter ['a'] = none ∧
      _encode_text_filter ['a'] ≠ some (['%'] ++ ['a'] ++ ['%']) := by
  decide

/-- C1 (amended): for every entry text `x` of length greater than 1 whose first
character is not a double quote and whose last character is not a double quote,
`_encode_text_filter x` returns the pattern `%` ++ `x` ++ `%`. -/
theorem encode_plain (x : CStr) (hlen : 1 < strlen x)
    (hfirst : x.head? ≠ some '"') (hlast : x.getLast? ≠ some '"') :
    _encode_text_filter x = some (['%'] ++ x ++ ['%']) := by
  obtain ⟨a, m, b, rfl⟩ := exists_cons_concat x hlen
  have ha : a ≠ '"' := by simpa using hfirst
  have hb : b ≠ '"' := by
    intro h; apply hlast; rw [getLast?_cons_concat, h]
  rw [encode_cons_concat]
  simp [ha, hb]

/-- Witness for `encode_plain`: the text `ab` is encoded as `%ab%`. -/
theorem encode_plain_witness :
    _encode_text_filter ['a', 'b'] = some (['%'] ++ ['a', 'b'] ++ ['%']) :=
  encode_plain ['a', 'b'] (by decide) (by decide) (by decide)

/-- C2 (counterexample): the four-character text quote, quote, `a`, quote is longer
than 1, starts and ends with a double quote and is not the two-quote text, yet the
encoder returns no pattern for it rather than the text without its first and last
character. -/
theorem encode_double_leading_quote_no_pattern :
    1 < strlen ['"', '"', 'a', '"'] ∧
      (['"', '"', 'a', '"'] : CStr).head? = some '"' ∧
      (['"', '"', 'a', '"'] : CStr).getLast? = some '"' ∧
      (['"', '"', 'a', '"'] : CStr) ≠ ['"', '"'] ∧
      _encode_text_filter ['"', '"', 'a', '"'] = none ∧
      _encode_text_filter ['"', '"', 'a', '"'] ≠
        some ((['"', '"', 'a', '"'] : CStr).tail.dropLast) := by
  decide

/-- C2 (amended): for every entry text `x` of length greater than 1 that starts with a
double quote, whose second character is not a double quote, and that ends with a
double quote, `_encode_text_filter x` returns `x` with its first and its last
character removed and no wildcard added. -/
theorem encode_quoted (x : CStr) (hlen : 1 < strlen x)
    (hfirst : x.head? = some '"') (hsecond : x.get? 1 ≠ some '"')
    (hlast : x.getLast? = some '"') :
    _encode_text_filter x = some x.tail.dropLast := by
  obtain ⟨a, m, b, rfl⟩ := exists_cons_concat x hlen
  have ha : a = '"' := by simpa using hfirst
  have hb : b = '"' := by
    rw [getLast?_cons_concat] at hlast; simpa using hlast
  have hm : (m ++ [b]).head? ≠ some '"' := by
    intro h; apply hsecond
    have := charAt_one_cons_concat a m b
    unfold charAt at this
    rw [this, h]
  rw [encode_cons_concat]
  subst ha hb
  cases m with
  | nil => exact absurd rfl hm
  | cons c r =>
    have hc : c ≠ '"' := by simpa using hm
    simp [hc, List.dropLast_concat, dropLast_cons_concat]

/-- Witness for `encode_quoted`: quote, `abc`, quote is encoded as `abc`. -/
theorem encode_quoted_witness :
    _encode_text_filter ['"', 'a', 'b', 'c', '"'] = some ['a', 'b', 'c'] :=
  encode_quoted ['"', 'a', 'b', 'c', '"'] (by decide) (by decide) (by decide) (by decide)

/-- C3: for every non-empty text `s` that contains no double quote, the encoder maps a
double quote followed by `s` to `s` ++ `%`, and `s` followed by a double quote to
`%` ++ `s`. -/
theorem encode_one_sided_quote (s : CStr) (hne : s ≠ []) (hq : '"' ∉ s) :
    _encode_text_filter ('"' :: s) = some (s ++ ['%']) ∧
    _encode_text_filter (s ++ ['"']) = some (['%'] ++ s) := by
  constructor
  · rcases List.eq_nil_or_concat s with hs | ⟨m, b, hs⟩
    · exact absurd hs hne
    · have hs2 : s = m ++ [b] := by rw [hs]; simp
      subst hs2
      have hb : b ≠ '"' := by
        intro h; apply hq; simp [h]
      have hm : (m ++ [b]).head? ≠ some '"' := by
        intro h
        exact hq (List.mem_of_mem_head? h)
      rw [encode_cons_concat]
      cases m with
      | nil => simp [hb]
      | cons c r =>
        have hc : c ≠ '"' := by simpa using hm
        simp [hb, hc]
  · cases s with
    | nil => exact absurd rfl hne
    | cons a m =>
      have ha : a ≠ '"' := by
        intro h; apply hq; simp [h]
      rw [List.cons_append, encode_cons_concat]
      simp [ha]

/-- Witness for `encode_one_sided_quote` at the text `abc`. -/
theorem encode_one_sided_quote_witness :
    _encode_text_filter ['"', 'a', 'b', 'c'] = some ['a', 'b', 'c', '%'] ∧
    _encode_text_filter ['a', 'b', 'c', '"'] = some ['%', 'a', 'b', 'c'] :=
  encode_one_sided_quote ['a', 'b', 'c'] (by decide) (by decide)

/-- C4: the encoder returns no pattern (`NULL`) for the empty entry text and for the
entry text made of exactly two double quotes. -/
theorem encode_empty_and_quote_pair :
    _encode_text_filter [] = none ∧ _encode_text_filter ['"', '"'] = none := by
  decide

/-- C5: round trip.  For every entry text `x` of length at least 2 that does not begin
with two double quotes, such that `x` without a leading double quote does not start
with `%` and `x` without a trailing double quote does not end with `%`, the encoder
returns a pattern and decoding that pattern gives `x` back. -/
theorem decode_encode_roundtrip (x : CStr) (hlen : 2 ≤ strlen x)
    (hqq : ¬ (x.get? 0 = some '"' ∧ x.get? 1 = some '"'))
    (hstart : (if x.head? = some '"' then x.tail else x).head? ≠ some '%')
    (hend : (if x.getLast? = some '"' then x.dropLast else x).getLast? ≠ some '%') :
    ∃ t, _encode_text_filter x = some t ∧ _decode_text_filter t = x := by
  obtain ⟨a, m, b, rfl⟩ := exists_cons_concat x hlen
  rw [getLast?_cons_concat, dropLast_cons_concat] at hend
  have h1 := charAt_one_cons_concat a m b
  unfold charAt at h1
  rw [h1] at hqq
  simp only [List.head?_cons, List.tail_cons, List.get?_cons_zero, Option.some.injEq] at hstart hqq
  rw [encode_cons_concat]
  by_cases ha : a = '"'
  · subst ha
    have hm : (m ++ [b]).head? ≠ some '"' := fun h => hqq ⟨rfl, h⟩
    simp only [if_true] at hstart
    by_cases hb : b = '"'
    · subst hb
      simp only [if_true] at hend
      cases m with
      | nil => exact absurd rfl hm
      | cons c r =>
        have hc : c ≠ '%' := by simpa using hstart
        have hcq : c ≠ '"' := by simpa using hm
        refine ⟨c :: r, by simp [hcq], ?_⟩
        rw [decode_cons]
        rcases List.eq_nil_or_concat r with hr | ⟨r1, d, hr⟩
        · subst hr; simp [hc]
        · have hr2 : r = r1 ++ [d] := by rw [hr]; simp
          subst hr2
          rw [← List.cons_append, getLast?_cons_concat] at hend
          have hd : d ≠ '%' := by simpa using hend
          simp [hc, hd]
    · have hb2 : b ≠ '%' := by
        intro h; apply hend; simp [hb, getLast?_cons_concat, h]
      cases m with
      | nil =>
        refine ⟨[b, '%'], by simp [hb], ?_⟩
        rw [decode_cons]
        simp [hb2]
      | cons c r =>
        have hc : c ≠ '%' := by simpa using hstart
        have hcq : c ≠ '"' := by simpa using hm
        refine ⟨c :: (r ++ [b, '%']), by simp [hcq, hb], ?_⟩
        rw [decode_cons]
        have : r ++ [b, '%'] = (r ++ [b]) ++ ['%'] := by simp
        rw [this]
        simp [hc, List.dropLast_concat]
  · by_cases hb : b = '"'
    · subst hb
      simp only [if_true] at hend
      refine ⟨'%' :: a :: m, by simp [ha], ?_⟩
      rw [decode_cons]
      rcases List.eq_nil_or_concat m with hr | ⟨r1, d, hr⟩
      · subst hr
        have ha2 : a ≠ '%' := by simpa using hend
        simp [ha2]
      · have hr2 : m = r1 ++ [d] := by rw [hr]; simp
        subst hr2
        rw [getLast?_cons_concat] at hend
        have hd : d ≠ '%' := by simpa using hend
        simp [hd, getLast?_cons_concat]
    · refine ⟨'%' :: a :: (m ++ [b, '%']), by simp [ha, hb], ?_⟩
      rw [decode_cons]
      have hcat : a :: (m ++ [b, '%']) = (a :: (m ++ [b])) ++ ['%'] := by simp
      rw [hcat]
      simp only [if_true, List.nil_append, List.getLast?_concat, List.dropLast_concat]
      simp

/-- Witness for `decode_encode_roundtrip` at the text quote, `ab`. -/
theorem decode_encode_roundtrip_witness :
    ∃ t, _encode_text_filter ['"', 'a', 'b'] = some t ∧
      _decode_text_filter t = ['"', 'a', 'b'] :=
  decode_encode_roundtrip ['"', 'a', 'b'] (by decide) (by decide) (by decide) (by decide)

/-! ## Colour-label mask: auxiliary lemmas -/

theorem land_eq_zero_iff (m x : Nat) :
    m &&& x = 0 ↔ ∀ i, ¬ (m.testBit i = true ∧ x.testBit i = true) := by
  constructor
  · intro h i hi
    have h2 : (m &&& x).testBit i = true := by simp [hi.1, hi.2]
    rw [h] at h2
    simp at h2
  · intro h
    apply Nat.eq_of_testBit_eq
    intro i
    have := h i
    simp only [Nat.testBit_and, Nat.zero_testBit]
    cases hm : m.testBit i <;> cases hx : x.testBit i <;> simp_all

theorem testBit_one_shiftLeft (k j : Nat) : (1 <<< k).testBit j = decide (k = j) := by
  rw [Nat.one_shiftLeft, Nat.testBit_two_pow]

theorem land_pair_ne_zero (m a b : Nat) :
    m &&& ((1 <<< a) ||| (1 <<< b)) ≠ 0 ↔ (m.testBit a = true ∨ m.testBit b = true) := by
  rw [Ne, land_eq_zero_iff]
  simp only [Nat.testBit_or, testBit_one_shiftLeft]
  constructor
  · intro h
    by_contra hcon
    push_neg at hcon
    apply h
    intro i hi
    rcases hi with ⟨h1, h2⟩
    simp at h2
    rcases h2 with rfl | rfl
    · simp [hcon.1] at h1
    · simp [hcon.2] at h1
  · rintro (h | h) hall
    · exact hall a ⟨h, by simp⟩
    · exact hall b ⟨h, by simp⟩

theorem land_one_shiftLeft_ne_zero (m a : Nat) :
    m &&& (1 <<< a) ≠ 0 ↔ m.testBit a = true := by
  have := land_pair_ne_zero m a a
  simpa using this

theorem testBit_bnot32 (x j : Nat) :
    (bnot32 x).testBit j = xor (decide (j < 32)) (x.testBit j) := by
  unfold bnot32
  rw [Nat.testBit_xor]
  have : (0xFFFFFFFF : Nat) = 2 ^ 32 - 1 := by norm_num
  rw [this, Nat.testBit_two_pow_sub_one]


theorem shiftLeft_one_succ (i : Nat) : (1 <<< i) <<< 1 = 1 <<< (i + 1) := by
  simp [Nat.shiftLeft_eq, pow_succ]

theorem update_colors_loop_eq (mask n : Nat) : ∀ i nb : Nat,
    update_colors_loop mask n (1 <<< (i + 12)) (1 <<< i) nb =
      nb + (List.range' i n).countP (slotActive mask) := by
  induction n with
  | zero => intro i nb; simp [update_colors_loop]
  | succ n ih =>
    intro i nb
    have hstep : i + 12 + 1 = (i + 1) + 12 := by omega
    rw [update_colors_loop, shiftLeft_one_succ, shiftLeft_one_succ, hstep, ih]
    simp only [land_one_shiftLeft_ne_zero]
    rw [List.range'_succ, List.countP_cons]
    by_cases h : slotActive mask i = true
    · have h2 : mask.testBit (i + 12) = true ∨ mask.testBit i = true := by
        unfold slotActive at h; simp at h; tauto
      simp [h, h2]; omega
    · have h2 : ¬ (mask.testBit (i + 12) = true ∨ mask.testBit i = true) := by
        unfold slotActive at h; simp at h; simp [h]
      simp [h, h2]

theorem update_colors_filter_eq (c : Collection) :
    (_update_colors_filter c).colors_filter =
      if activeCount c.colors_filter ≤ 1 then c.colors_filter ||| CL_AND_MASK
      else c.colors_filter := by
  have h : update_colors_loop c.colors_filter 6 0x1000 1 0 = activeCount c.colors_filter := by
    have h0 := update_colors_loop_eq c.colors_filter 6 0 0
    rw [Nat.zero_add] at h0
    rw [activeCount, List.range_eq_range']
    simpa using h0
  unfold _update_colors_filter
  simp only [dt_collection_get_colors_filter, DT_COLORLABELS_LAST]
  rw [h]
  split <;> simp [dt_collection_set_colors_filter]


theorem colorlabel_clicked_eq (c : Collection) (k : Nat) (e : GdkEventButton) :
    (_colorlabel_clicked c k e).colors_filter =
      if activeCount (clicked_mask c.colors_filter k e) ≤ 1
      then clicked_mask c.colors_filter k e ||| CL_AND_MASK
      else clicked_mask c.colors_filter k e := by
  unfold _colorlabel_clicked
  simp only [dt_collection_update_query]
  rw [update_colors_filter_eq]
  unfold clicked_mask
  by_cases hk : k = DT_COLORLABELS_LAST <;>
    simp only [hk, if_true, if_false, dt_collection_set_colors_filter,
      dt_collection_get_colors_filter]

theorem testBit_CL_AND_MASK (j : Nat) : CL_AND_MASK.testBit j = decide (31 = j) := by
  have : CL_AND_MASK = 2 ^ 31 := by decide
  rw [this, Nat.testBit_two_pow]

theorem slotActive_or_and_mask (m j : Nat) (hj : j ≤ 5) :
    slotActive (m ||| CL_AND_MASK) j = slotActive m j := by
  unfold slotActive
  rw [Nat.testBit_or, Nat.testBit_or, testBit_CL_AND_MASK, testBit_CL_AND_MASK]
  have h1 : ¬ (31 = j) := by omega
  have h2 : ¬ (31 = j + 12) := by omega
  simp [h1, h2]

theorem activeCount_or_and_mask (m : Nat) :
    activeCount (m ||| CL_AND_MASK) = activeCount m := by
  unfold activeCount
  apply List.countP_congr
  intro j hj
  have hj5 : j ≤ 5 := by
    have := List.mem_range.mp hj; omega
  rw [slotActive_or_and_mask m j hj5]

/-- Bits below 31 of the stored mask are those of the value set by the click. -/
theorem colorlabel_clicked_testBit (c : Collection) (k : Nat) (e : GdkEventButton)
    (j : Nat) (hj : j < 31) :
    (_colorlabel_clicked c k e).colors_filter.testBit j =
      (clicked_mask c.colors_filter k e).testBit j := by
  rw [colorlabel_clicked_eq]
  split
  · rw [Nat.testBit_or, testBit_CL_AND_MASK]
    have h1 : ¬ (31 = j) := by omega
    simp [h1]
  · rfl

theorem colorlabel_clicked_activeCount (c : Collection) (k : Nat) (e : GdkEventButton) :
    activeCount (_colorlabel_clicked c k e).colors_filter =
      activeCount (clicked_mask c.colors_filter k e) := by
  rw [colorlabel_clicked_eq]
  split
  · exact activeCount_or_and_mask _
  · rfl

/-- Bits of the value set by a click on a specific colour. -/
theorem clicked_mask_testBit_specific (mask k : Nat) (e : GdkEventButton) (hk : k ≤ 4)
    (j : Nat) :
    (clicked_mask mask k e).testBit j =
      if j = k then (!slotActive mask k && !e.ctrl)
      else if j = k + 12 then (!slotActive mask k && (e.ctrl || !e.plain))
      else (mask.testBit j && decide (j < 32)) := by
  have hk5 : k ≠ DT_COLORLABELS_LAST := by unfold DT_COLORLABELS_LAST; omega
  unfold clicked_mask
  simp only [hk5, if_false, land_pair_ne_zero]
  have hact : (mask.testBit k = true ∨ mask.testBit (k + 12) = true) ↔
      slotActive mask k = true := by
    unfold slotActive; simp
  simp only [hact]
  rcases e with ⟨ctrl, plain⟩
  have e1 : ∀ x y : Nat, ((1 <<< x).testBit y) = decide (x = y) := testBit_one_shiftLeft
  by_cases ha : slotActive mask k = true
  · simp only [ha, if_true, Nat.testBit_or, Nat.testBit_and, testBit_bnot32, e1,
      Nat.zero_testBit]
    by_cases hjk : j = k
    · subst hjk
      have hlt : j < 32 := by omega
      simp [hlt]
    · by_cases hjk2 : j = k + 12
      · subst hjk2
        have hlt : k + 12 < 32 := by omega
        simp [hlt]
      · have h3 : ¬ (k = j) := fun h => hjk h.symm
        have h4 : ¬ (k + 12 = j) := fun h => hjk2 h.symm
        simp [hjk, hjk2, h3, h4]
  · have ha2 : slotActive mask k = false := by simpa using ha
    have hb1 : mask.testBit k = false := by
      unfold slotActive at ha2; simp at ha2; exact ha2.1
    have hb2 : mask.testBit (k + 12) = false := by
      unfold slotActive at ha2; simp at ha2; exact ha2.2
    simp only [ha, if_false]
    by_cases hjk : j = k
    · subst hjk
      have h5 : ¬ (j + 12 = j) := by omega
      cases ctrl <;> cases plain <;>
        simp [ha2, hb1, h5, Nat.testBit_or, Nat.testBit_and, testBit_bnot32, e1,
          -Nat.testBit_shiftLeft]
    · by_cases hjk2 : j = k + 12
      · subst hjk2
        have h5 : ¬ (k = k + 12) := by omega
        cases ctrl <;> cases plain <;>
          simp [ha2, hb2, h5, Nat.testBit_or, Nat.testBit_and, testBit_bnot32, e1,
            -Nat.testBit_shiftLeft]
      · have h3 : ¬ (k = j) := fun h => hjk h.symm
        have h4 : ¬ (k + 12 = j) := fun h => hjk2 h.symm
        cases ctrl <;> cases plain <;>
          simp [ha2, hjk, hjk2, h3, h4, Nat.testBit_or, Nat.testBit_and, testBit_bnot32, e1,
            -Nat.testBit_shiftLeft]


theorem testBit_CL_ALL_INCLUDED (j : Nat) : CL_ALL_INCLUDED.testBit j = decide (j < 6) := by
  have : CL_ALL_INCLUDED = 2 ^ 6 - 1 := by decide
  rw [this, Nat.testBit_two_pow_sub_one]

theorem testBit_CL_ALL_EXCLUDED (j : Nat) :
    CL_ALL_EXCLUDED.testBit j = (decide (12 ≤ j) && decide (j < 18)) := by
  have : CL_ALL_EXCLUDED = (2 ^ 6 - 1) <<< 12 := by decide
  rw [this, Nat.testBit_shiftLeft, Nat.testBit_two_pow_sub_one]
  by_cases h : 12 ≤ j
  · have : (j - 12 < 6) ↔ j < 18 := by omega
    simp [h, this]
  · simp [h]

/-- Bits of the value set by a click on the "all" slot. -/
theorem clicked_mask_testBit_all (mask : Nat) (e : GdkEventButton) (j : Nat) :
    (clicked_mask mask 5 e).testBit j =
      ((!slotActive mask 5 &&
          (if e.ctrl then (decide (12 ≤ j) && decide (j < 18))
           else if e.plain then decide (j < 6)
           else (decide (j = 5) || decide (j = 17)))) ||
        (mask.testBit j && decide (j = 31))) := by
  unfold clicked_mask
  simp only [DT_COLORLABELS_LAST, if_true, land_pair_ne_zero]
  have hact : (mask.testBit 5 = true ∨ mask.testBit (5 + 12) = true) ↔
      slotActive mask 5 = true := by
    unfold slotActive; simp
  simp only [hact]
  have e1 : ∀ x y : Nat, ((1 <<< x).testBit y) = decide (x = y) := testBit_one_shiftLeft
  have e2 : decide (31 = j) = decide (j = 31) := by
    by_cases h : j = 31
    · simp [h]
    · have : ¬ (31 = j) := fun h2 => h h2.symm
      simp [h, this]
  have e3 : decide (5 = j) = decide (j = 5) := by
    by_cases h : j = 5
    · simp [h]
    · have : ¬ (5 = j) := fun h2 => h h2.symm
      simp [h, this]
  have e4 : decide (5 + 12 = j) = decide (j = 17) := by
    by_cases h : j = 17
    · simp [h]
    · have : ¬ (5 + 12 = j) := by omega
      simp [h, this]
  rcases e with ⟨ctrl, plain⟩
  by_cases ha : slotActive mask 5 = true
  · simp only [ha, if_true, Nat.testBit_or, Nat.testBit_and, testBit_CL_AND_MASK, e2,
      Nat.zero_testBit]
    simp
  · have ha2 : slotActive mask 5 = false := by simpa using ha
    simp only [ha, if_false]
    cases ctrl <;> cases plain <;>
      simp only [Nat.testBit_or, Nat.testBit_and, testBit_CL_AND_MASK,
        testBit_CL_ALL_EXCLUDED, testBit_CL_ALL_INCLUDED, e1, e2, e3, e4, ha2,
        if_true, if_false, Bool.false_eq_true, Bool.not_false, Bool.true_and]


theorem clicked_mask_testBit_31 (mask k : Nat) (e : GdkEventButton) (hk : k ≤ 5) :
    (clicked_mask mask k e).testBit 31 = mask.testBit 31 := by
  rcases Nat.lt_or_ge k 5 with h | h
  · have hk4 : k ≤ 4 := by omega
    rw [clicked_mask_testBit_specific mask k e hk4]
    have h1 : ¬ (31 = k) := by omega
    have h2 : ¬ (31 = k + 12) := by omega
    simp [h1, h2]
  · have hk5 : k = 5 := by omega
    subst hk5
    rw [clicked_mask_testBit_all]
    rcases e with ⟨ctrl, plain⟩
    cases ctrl <;> cases plain <;> simp

/-- Bit 31 of the stored mask: forced when at most one slot is active in the value set
by the click, otherwise that of the mask before the click. -/
theorem colorlabel_clicked_testBit_31 (c : Collection) (k : Nat) (e : GdkEventButton)
    (hk : k ≤ 5) :
    (_colorlabel_clicked c k e).colors_filter.testBit 31 =
      (decide (activeCount (clicked_mask c.colors_filter k e) ≤ 1) ||
        c.colors_filter.testBit 31) := by
  rw [colorlabel_clicked_eq]
  by_cases hn : activeCount (clicked_mask c.colors_filter k e) ≤ 1
  · rw [if_pos hn, Nat.testBit_or, testBit_CL_AND_MASK]
    simp [hn]
  · rw [if_neg hn, clicked_mask_testBit_31 _ k e hk]
    simp [hn]

/-- C6 (evaluation at the failing input): from the neutral mask `0x80000000`, whose
slots all satisfy mutual exclusion, a click on slot 0 with a modifier that is neither
"none" nor Ctrl stores `0x80001001`, in which slot 0 has both its include bit (bit 0)
and its exclude bit (bit 12) set. -/
theorem colorlabel_clicked_other_modifier_sets_both_bits :
    exclusive 0x80000000 ∧
    (_colorlabel_clicked ⟨none, 0x80000000, 0⟩ 0 otherClick).colors_filter = 0x80001001 ∧
    (_colorlabel_clicked ⟨none, 0x80000000, 0⟩ 0 otherClick).colors_filter.testBit 0 = true ∧
    (_colorlabel_clicked ⟨none, 0x80000000, 0⟩ 0 otherClick).colors_filter.testBit 12 = true ∧
    ¬ exclusive (_colorlabel_clicked ⟨none, 0x80000000, 0⟩ 0 otherClick).colors_filter := by
  decide

/-- Mutual exclusion is preserved by every click whose modifier state is recognised by
the handler (no modifier, or Ctrl). -/
theorem colorlabel_clicked_exclusive_of_recognised (c : Collection) (k : Nat)
    (e : GdkEventButton) (hk : k ≤ 5) (hmod : e.ctrl = true ∨ e.plain = true)
    (hex : exclusive c.colors_filter) :
    exclusive (_colorlabel_clicked c k e).colors_filter := by
  intro j hj
  have hj1 : j < 31 := by omega
  have hj2 : j + 12 < 31 := by omega
  rw [colorlabel_clicked_testBit c k e j hj1, colorlabel_clicked_testBit c k e (j + 12) hj2]
  have hexj := hex j hj
  rcases e with ⟨ctrl, plain⟩
  simp only at hmod
  rcases Nat.lt_or_ge k 5 with h | h
  · have hk4 : k ≤ 4 := by omega
    rw [clicked_mask_testBit_specific _ k _ hk4, clicked_mask_testBit_specific _ k _ hk4]
    by_cases hjk : j = k
    · subst hjk
      have h1 : ¬ (j + 12 = j) := by omega
      cases ctrl <;> cases plain <;> simp [h1] at hmod ⊢
    · have h1 : ¬ (j = k + 12) := by omega
      have h2 : ¬ (j + 12 = k) := by omega
      have h3 : ¬ (j + 12 = k + 12) := by omega
      simp only [hjk, h1, h2, h3, if_false]
      intro hboth
      apply hexj
      simp at hboth
      exact ⟨hboth.1.1, hboth.2.1⟩
  · have hk5 : k = 5 := by omega
    subst hk5
    rw [clicked_mask_testBit_all, clicked_mask_testBit_all]
    have h1 : ¬ (j = 31) := by omega
    have h2 : ¬ (j + 12 = 31) := by omega
    have h3 : ¬ (12 ≤ j) := by omega
    have h4 : ¬ (j + 12 < 6) := by omega
    cases ctrl <;> cases plain <;> simp [h1, h2, h3, h4] at hmod ⊢

/-- Witness for `colorlabel_clicked_exclusive_of_recognised`. -/
theorem colorlabel_clicked_exclusive_of_recognised_witness :
    exclusive (_colorlabel_clicked ⟨none, 0x80000001, 0⟩ 3 ctrlClick).colors_filter :=
  colorlabel_clicked_exclusive_of_recognised ⟨none, 0x80000001, 0⟩ 3 ctrlClick
    (by decide) (by decide) (by decide)


theorem slotActive_clicked (c : Collection) (k : Nat) (e : GdkEventButton) (j : Nat)
    (hj : j ≤ 5) :
    slotActive (_colorlabel_clicked c k e).colors_filter j =
      slotActive (clicked_mask c.colors_filter k e) j := by
  unfold slotActive
  rw [colorlabel_clicked_testBit c k e j (by omega),
    colorlabel_clicked_testBit c k e (j + 12) (by omega)]

/-- C7: specific-slot transition.  For every mask, slot `k` in 0..4 and modifier "none"
or "exclude": slot `k` becomes neutral if it was active, otherwise exclude-only with
the exclude modifier and include-only with no modifier; the include and exclude bits
of every other slot are unchanged.  From a mask with all slots neutral, two plain
clicks on slot 2 leave every slot neutral. -/
theorem colorlabel_clicked_specific_slot (c : Collection) (k : Nat) (e : GdkEventButton)
    (hk : k ≤ 4) (hmod : e = plainClick ∨ e = ctrlClick) :
    (slotActive c.colors_filter k = true →
      (_colorlabel_clicked c k e).colors_filter.testBit k = false ∧
      (_colorlabel_clicked c k e).colors_filter.testBit (k + 12) = false) ∧
    (slotActive c.colors_filter k = false → e = ctrlClick →
      (_colorlabel_clicked c k e).colors_filter.testBit (k + 12) = true ∧
      (_colorlabel_clicked c k e).colors_filter.testBit k = false) ∧
    (slotActive c.colors_filter k = false → e = plainClick →
      (_colorlabel_clicked c k e).colors_filter.testBit k = true ∧
      (_colorlabel_clicked c k e).colors_filter.testBit (k + 12) = false) ∧
    (∀ j, j ≤ 5 → j ≠ k →
      (_colorlabel_clicked c k e).colors_filter.testBit j = c.colors_filter.testBit j ∧
      (_colorlabel_clicked c k e).colors_filter.testBit (j + 12) =
        c.colors_filter.testBit (j + 12)) ∧
    ((∀ j, j ≤ 5 → slotActive c.colors_filter j = false) →
      ∀ j, j ≤ 5 →
        slotActive (_colorlabel_clicked (_colorlabel_clicked c 2 plainClick) 2
          plainClick).colors_filter j = false) := by
  have hk1 : k < 31 := by omega
  have hk2 : k + 12 < 31 := by omega
  have hne : ¬ (k + 12 = k) := by omega
  refine ⟨?_, ?_, ?_, ?_, ?_⟩
  · intro ha
    rw [colorlabel_clicked_testBit c k e k hk1, colorlabel_clicked_testBit c k e _ hk2,
      clicked_mask_testBit_specific _ k _ hk, clicked_mask_testBit_specific _ k _ hk]
    simp [ha, hne]
  · intro ha he
    rw [colorlabel_clicked_testBit c k e k hk1, colorlabel_clicked_testBit c k e _ hk2,
      clicked_mask_testBit_specific _ k _ hk, clicked_mask_testBit_specific _ k _ hk]
    subst he
    simp [ha, hne, ctrlClick]
  · intro ha he
    rw [colorlabel_clicked_testBit c k e k hk1, colorlabel_clicked_testBit c k e _ hk2,
      clicked_mask_testBit_specific _ k _ hk, clicked_mask_testBit_specific _ k _ hk]
    subst he
    simp [ha, hne, plainClick]
  · intro j hj hjk
    rw [colorlabel_clicked_testBit c k e j (by omega),
      colorlabel_clicked_testBit c k e (j + 12) (by omega),
      clicked_mask_testBit_specific _ k _ hk, clicked_mask_testBit_specific _ k _ hk]
    have h1 : ¬ (j = k + 12) := by omega
    have h2 : ¬ (j + 12 = k) := by omega
    have h3 : ¬ (j + 12 = k + 12) := by omega
    have h4 : j < 32 := by omega
    have h5 : j + 12 < 32 := by omega
    simp [hjk, h1, h2, h3, h4, h5]
  · intro hall j hj
    have h2 : (2 : Nat) ≤ 4 := by decide
    have hfirst : slotActive (_colorlabel_clicked c 2 plainClick).colors_filter 2 = true := by
      rw [slotActive_clicked _ _ _ _ (by decide)]
      unfold slotActive
      rw [clicked_mask_testBit_specific _ 2 _ h2]
      simp [hall 2 (by decide), plainClick]
    rw [slotActive_clicked _ _ _ _ hj]
    unfold slotActive
    rw [clicked_mask_testBit_specific _ 2 _ h2, clicked_mask_testBit_specific _ 2 _ h2]
    by_cases hj2 : j = 2
    · subst hj2
      simp [hfirst]
    · have h3 : ¬ (j = 2 + 12) := by omega
      have h4 : ¬ (j + 12 = 2) := by omega
      have h5 : ¬ (j + 12 = 2 + 12) := by omega
      simp only [hj2, h3, h4, h5, if_false]
      rw [colorlabel_clicked_testBit c 2 _ j (by omega),
        colorlabel_clicked_testBit c 2 _ (j + 12) (by omega),
        clicked_mask_testBit_specific _ 2 _ h2, clicked_mask_testBit_specific _ 2 _ h2]
      simp only [hj2, h3, h4, h5, if_false]
      have hn := hall j hj
      unfold slotActive at hn
      simp at hn
      simp [hn.1, hn.2]

/-- Witness for `colorlabel_clicked_specific_slot`: a plain click on slot 2 of the
neutral mask `0x80000000`. -/
theorem colorlabel_clicked_specific_slot_witness :
    (_colorlabel_clicked ⟨none, 0x80000000, 0⟩ 2 plainClick).colors_filter.testBit 2 = true ∧
    (_colorlabel_clicked ⟨none, 0x80000000, 0⟩ 2 plainClick).colors_filter.testBit (2 + 12) =
      false :=
  (colorlabel_clicked_specific_slot ⟨none, 0x80000000, 0⟩ 2 plainClick (by decide)
    (Or.inl rfl)).2.2.1 (by decide) rfl

/-- C8: after every click (any mask, any slot 0..5, any modifier state), if at most one
of the slots 0..5 is active in the stored mask then bit 31 (AND) is set in it, and if
more than one slot is active then bit 31 of the stored mask equals bit 31 of the mask
before the click. -/
theorem colorlabel_clicked_combination_bit (c : Collection) (k : Nat) (e : GdkEventButton)
    (hk : k ≤ 5) :
    (activeCount (_colorlabel_clicked c k e).colors_filter ≤ 1 →
      (_colorlabel_clicked c k e).colors_filter.testBit 31 = true) ∧
    (1 < activeCount (_colorlabel_clicked c k e).colors_filter →
      (_colorlabel_clicked c k e).colors_filter.testBit 31 = c.colors_filter.testBit 31) := by
  rw [colorlabel_clicked_activeCount, colorlabel_clicked_testBit_31 c k e hk]
  constructor
  · intro hn
    simp [hn]
  · intro hn
    have hn2 : ¬ activeCount (clicked_mask c.colors_filter k e) ≤ 1 := by omega
    simp [hn2]

/-- Witness for `colorlabel_clicked_combination_bit`: a Ctrl click on slot 1 of the
mask `0x1` (slot 0 included, OR combination). -/
theorem colorlabel_clicked_combination_bit_witness :
    (activeCount (_colorlabel_clicked ⟨none, 1, 0⟩ 1 ctrlClick).colors_filter ≤ 1 →
      (_colorlabel_clicked ⟨none, 1, 0⟩ 1 ctrlClick).colors_filter.testBit 31 = true) ∧
    (1 < activeCount (_colorlabel_clicked ⟨none, 1, 0⟩ 1 ctrlClick).colors_filter →
      (_colorlabel_clicked ⟨none, 1, 0⟩ 1 ctrlClick).colors_filter.testBit 31 =
        (1 : Nat).testBit 31) :=
  colorlabel_clicked_combination_bit ⟨none, 1, 0⟩ 1 ctrlClick (by decide)

theorem two_le_activeCount (m : Nat) (h0 : slotActive m 0 = true) (h1 : slotActive m 1 = true) :
    1 < activeCount m := by
  unfold activeCount
  have hr : List.range 6 = [0, 1, 2, 3, 4, 5] := by decide
  rw [hr]
  simp only [List.countP_cons, h0, h1, if_true]
  omega

/-- C9: for every mask in which slot 5 is not active, a click on slot 5 with the
exclude modifier stores a mask in which each of the slots 0..4 has its exclude bit set
and its include bit clear and whose bit 31 is that of the mask before the click; a
click on slot 5 with no modifier likewise makes each of the slots 0..4 include-only. -/
theorem colorlabel_clicked_all_slot (c : Collection)
    (h5 : slotActive c.colors_filter 5 = false) :
    ((∀ j, j ≤ 4 →
        (_colorlabel_clicked c 5 ctrlClick).colors_filter.testBit (j + 12) = true ∧
        (_colorlabel_clicked c 5 ctrlClick).colors_filter.testBit j = false) ∧
      (_colorlabel_clicked c 5 ctrlClick).colors_filter.testBit 31 =
        c.colors_filter.testBit 31) ∧
    ((∀ j, j ≤ 4 →
        (_colorlabel_clicked c 5 plainClick).colors_filter.testBit j = true ∧
        (_colorlabel_clicked c 5 plainClick).colors_filter.testBit (j + 12) = false) ∧
      (_colorlabel_clicked c 5 plainClick).colors_filter.testBit 31 =
        c.colors_filter.testBit 31) := by
  have hbit : ∀ e : GdkEventButton, (e.ctrl = true ∨ e.plain = true) →
      (_colorlabel_clicked c 5 e).colors_filter.testBit 31 = c.colors_filter.testBit 31 := by
    intro e he
    have hcount : 1 < activeCount (_colorlabel_clicked c 5 e).colors_filter := by
      apply two_le_activeCount
      · rw [slotActive_clicked _ _ _ _ (by decide)]
        unfold slotActive
        rw [clicked_mask_testBit_all, clicked_mask_testBit_all]
        rcases e with ⟨ctrl, plain⟩
        cases ctrl <;> cases plain <;> simp [h5] at he ⊢
      · rw [slotActive_clicked _ _ _ _ (by decide)]
        unfold slotActive
        rw [clicked_mask_testBit_all, clicked_mask_testBit_all]
        rcases e with ⟨ctrl, plain⟩
        cases ctrl <;> cases plain <;> simp [h5] at he ⊢
    rw [colorlabel_clicked_activeCount] at hcount
    have hn2 : ¬ activeCount (clicked_mask c.colors_filter 5 e) ≤ 1 := by omega
    rw [colorlabel_clicked_testBit_31 c 5 e (by decide)]
    simp [hn2]
  refine ⟨⟨?_, hbit ctrlClick (Or.inl rfl)⟩, ⟨?_, hbit plainClick (Or.inr rfl)⟩⟩
  · intro j hj
    rw [colorlabel_clicked_testBit c 5 _ j (by omega),
      colorlabel_clicked_testBit c 5 _ (j + 12) (by omega),
      clicked_mask_testBit_all, clicked_mask_testBit_all]
    have h1 : ¬ (j = 31) := by omega
    have h2 : ¬ (j + 12 = 31) := by omega
    have h3 : ¬ (12 ≤ j) := by omega
    have h4 : j + 12 < 18 := by omega
    simp [h5, ctrlClick, h1, h2, h3, h4]
  · intro j hj
    rw [colorlabel_clicked_testBit c 5 _ j (by omega),
      colorlabel_clicked_testBit c 5 _ (j + 12) (by omega),
      clicked_mask_testBit_all, clicked_mask_testBit_all]
    have h1 : ¬ (j = 31) := by omega
    have h2 : ¬ (j + 12 = 31) := by omega
    have h3 : j < 6 := by omega
    have h4 : ¬ (j + 12 < 6) := by omega
    simp [h5, plainClick, h1, h2, h3, h4]

/-- Witness for `colorlabel_clicked_all_slot`: the mask `0x4` (slot 2 included, OR
combination), in which slot 5 is not active. -/
theorem colorlabel_clicked_all_slot_witness :
    (_colorlabel_clicked ⟨none, 4, 0⟩ 5 ctrlClick).colors_filter.testBit 31 =
      (4 : Nat).testBit 31 :=
  (colorlabel_clicked_all_slot ⟨none, 4, 0⟩ (by decide)).1.2

/-! ## Debounce -/

/-- C10 (evaluation at the failing input): with keystrokes at 0, 0.35, 0.69 and 1.05 s
and the tick handler called every 100 ms, the first fifteen calls return `TRUE` (no
commit) and the sixteenth, 1.6 s after the first keystroke, is the one that returns
`FALSE`; the filter is still uncommitted after the fifteenth tick and committed after
the sixteenth. -/
theorem text_entry_commit_on_sixteenth_tick :
    (run idle_world late_pause_trace).2 = List.replicate 15 true ++ [false] ∧
    (run idle_world (late_pause_trace.take 19)).1.collection.text_filter = none ∧
    (run idle_world (late_pause_trace.take 19)).1.d.time_out = 1 ∧
    (run idle_world late_pause_trace).1.collection.text_filter =
      some ['%', 'a', 'b', 'c', 'd', '%'] := by
  decide


/-! ## Debounce: auxiliary lemmas -/

theorem run_cons_some (w w' : World) (ev : Event) (evs : List Event) (b : Bool)
    (h : dispatch w ev = (w', some b)) :
    run w (ev :: evs) = ((run w' evs).1, b :: (run w' evs).2) := by
  simp [run, h]

theorem run_cons_none (w w' : World) (ev : Event) (evs : List Event)
    (h : dispatch w ev = (w', none)) :
    run w (ev :: evs) = run w' evs := by
  simp [run, h]

theorem run_append (l1 l2 : List Event) : ∀ w : World,
    run w (l1 ++ l2) =
      ((run (run w l1).1 l2).1, (run w l1).2 ++ (run (run w l1).1 l2).2) := by
  induction l1 with
  | nil => intro w; simp [run]
  | cons ev evs ih =>
    intro w
    rcases hd : dispatch w ev with ⟨w', _ | b⟩
    · rw [List.cons_append, run_cons_none w w' ev _ hd, run_cons_none w w' ev _ hd, ih]
    · rw [List.cons_append, run_cons_some w w' ev _ b hd, run_cons_some w w' ev _ b hd, ih]
      simp

/-- A keystroke on an idle panel starts the countdown at 15 and registers the tick. -/
theorem dispatch_key_idle (lk z : Int) (txt : CStr) (dim : Bool) (coll : Collection)
    (tm : Nat) (now : Int) (text : CStr) :
    dispatch ⟨⟨0, lk, z, txt, dim⟩, coll, tm⟩ (.key now text) =
      (⟨⟨15, now, z, text, dim⟩, coll, tm + 1⟩, none) := by
  simp [dispatch, _text_entry_changed, _launch_text_query]

/-- A keystroke during the countdown only refreshes `last_key_time`. -/
theorem dispatch_key_counting (tmo lk z : Int) (txt : CStr) (dim : Bool) (coll : Collection)
    (tm : Nat) (now : Int) (text : CStr) (h : tmo ≠ 0) :
    dispatch ⟨⟨tmo, lk, z, txt, dim⟩, coll, tm⟩ (.key now text) =
      (⟨⟨tmo, now, z, text, dim⟩, coll, tm⟩, none) := by
  simp [dispatch, _text_entry_changed, _launch_text_query, h]

/-- A tick that is neither idle nor the last two of the countdown only decrements. -/
theorem dispatch_tick_quiet (tmo lk z : Int) (txt : CStr) (dim : Bool) (coll : Collection)
    (tm : Nat) (clock : Int) (h3 : 3 ≤ tmo) (hq : clock - lk < 400) :
    dispatch ⟨⟨tmo, lk, z, txt, dim⟩, coll, tm + 1⟩ (.tick clock) =
      (⟨⟨tmo - 1, lk, z, txt, dim⟩, coll, tm + 1⟩, some true) := by
  have h0 : tmo ≠ 0 := by omega
  have h1 : ¬ (400 ≤ clock - lk) := by omega
  have h2 : ¬ (tmo - 1 = 1) := by omega
  have h4 : ¬ (tmo - 1 = 0) := by omega
  simp [dispatch, _text_entry_changed_wait, _set_widget_dimmed, h0, h1, h2, h4]

/-- The tick that brings the countdown to 1 dims the entry. -/
theorem dispatch_tick_busy (lk z : Int) (txt : CStr) (dim : Bool) (coll : Collection)
    (tm : Nat) (clock : Int) (hq : clock - lk < 400) :
    dispatch ⟨⟨2, lk, z, txt, dim⟩, coll, tm + 1⟩ (.tick clock) =
      (⟨⟨1, lk, z, txt, true⟩, coll, tm + 1⟩, some true) := by
  have h1 : ¬ (400 ≤ clock - lk) := by omega
  simp [dispatch, _text_entry_changed_wait, _set_widget_dimmed, h1]

/-- A tick at least 0.4 s after the last keystroke sets the countdown to 1, whatever
its value, refreshes `last_key_time` and dims the entry. -/
theorem dispatch_tick_idle (tmo lk z : Int) (txt : CStr) (dim : Bool) (coll : Collection)
    (tm : Nat) (clock : Int) (h0 : tmo ≠ 0) (hi : 400 ≤ clock - lk) :
    dispatch ⟨⟨tmo, lk, z, txt, dim⟩, coll, tm + 1⟩ (.tick clock) =
      (⟨⟨1, clock, z, txt, true⟩, coll, tm + 1⟩, some true) := by
  simp [dispatch, _text_entry_changed_wait, _set_widget_dimmed, h0, hi]

/-- A tick entered with countdown 1 less than 0.4 s after the last keystroke commits. -/
theorem dispatch_tick_commit (lk z : Int) (txt : CStr) (dim : Bool) (coll : Collection)
    (tm : Nat) (clock : Int) (hq : clock - lk < 400) :
    dispatch ⟨⟨1, lk, z, txt, dim⟩, coll, tm + 1⟩ (.tick clock) =
      (⟨⟨0, lk, z, txt, false⟩, committed coll txt, tm⟩, some false) := by
  have h1 : ¬ (400 ≤ clock - lk) := by omega
  simp [dispatch, _text_entry_changed_wait, _set_widget_dimmed, h1, committed]


theorem run_typing_round_quiet (tmo lk z : Int) (txt : CStr) (dim : Bool)
    (coll : Collection) (tm : Nat) (i : Nat) (text : CStr) (h3 : 3 ≤ tmo) :
    run ⟨⟨tmo, lk, z, txt, dim⟩, coll, tm + 1⟩ (typing_round i text) =
      (⟨⟨tmo - 1, 100 * (i : Int), z, text, dim⟩, coll, tm + 1⟩, [true]) := by
  unfold typing_round
  rw [run_cons_none _ _ _ _ (dispatch_key_counting tmo lk z txt dim coll (tm + 1) _ text
      (by omega)),
    run_cons_some _ _ _ _ _ (dispatch_tick_quiet tmo _ z text dim coll tm _ h3 (by omega))]
  rfl

/-- State and tick results after `n + 1` periods of continuous typing, `n ≤ 12`. -/
theorem run_continuous_typing_quiet (texts : Nat → CStr) (lk z : Int) (txt : CStr)
    (dim : Bool) (coll : Collection) (tm : Nat) : ∀ n : Nat, n ≤ 12 →
    run ⟨⟨0, lk, z, txt, dim⟩, coll, tm⟩ (continuous_typing_trace texts (n + 1)) =
      (⟨⟨14 - (n : Int), 100 * (n : Int), z, texts n, dim⟩, coll, tm + 1⟩,
        List.replicate (n + 1) true) := by
  intro n
  induction n with
  | zero =>
    intro _
    simp only [continuous_typing_trace, typing_round, List.nil_append]
    rw [run_cons_none _ _ _ _ (dispatch_key_idle lk z txt dim coll tm _ (texts 0)),
      run_cons_some _ _ _ _ _ (dispatch_tick_quiet 15 _ z (texts 0) dim coll tm _
        (by decide) (by norm_num))]
    simp [run]
  | succ n ih =>
    intro hn
    have ih1 := ih (by omega)
    rw [continuous_typing_trace, run_append, ih1]
    simp only
    rw [run_typing_round_quiet _ _ _ _ _ _ _ _ _ (by omega)]
    have e1 : (14 : Int) - (n : Int) - 1 = 14 - ((n + 1 : Nat) : Int) := by
      push_cast; ring
    rw [e1]
    simp [List.replicate_succ']


theorem single_key_trace_eq (text : CStr) (n : Nat) :
    single_key_trace text (n + 1) =
      single_key_trace text n ++ [Event.tick (100 * ((n : Int) + 1))] := by
  simp [single_key_trace, List.range_succ]

/-- State and tick results after one keystroke at time 0 and the first four ticks. -/
theorem run_single_key_four (lk z : Int) (txt : CStr) (dim : Bool) (coll : Collection)
    (tm : Nat) (text : CStr) :
    run ⟨⟨0, lk, z, txt, dim⟩, coll, tm⟩ (single_key_trace text 4) =
      (⟨⟨1, 400, z, text, true⟩, coll, tm + 1⟩, [true, true, true, true]) := by
  have ht : single_key_trace text 4 =
      [Event.key 0 text, Event.tick 100, Event.tick 200, Event.tick 300, Event.tick 400] := by
    simp [single_key_trace, List.range_succ]
  rw [ht,
    run_cons_none _ _ _ _ (dispatch_key_idle lk z txt dim coll tm 0 text),
    run_cons_some _ _ _ _ _ (dispatch_tick_quiet 15 0 z text dim coll tm 100
      (by decide) (by decide)),
    run_cons_some _ _ _ _ _ (dispatch_tick_quiet (15 - 1) 0 z text dim coll tm 200
      (by decide) (by decide)),
    run_cons_some _ _ _ _ _ (dispatch_tick_quiet (15 - 1 - 1) 0 z text dim coll tm 300
      (by decide) (by decide)),
    run_cons_some _ _ _ _ _ (dispatch_tick_idle (15 - 1 - 1 - 1) 0 z text dim coll tm 400
      (by decide) (by decide))]
  rfl

/-- C11 (counterexample): after one keystroke at t = 0 on the idle panel, the fourth
tick (t = 0.4 s) returns `TRUE` and leaves the committed filter untouched; it only sets
the countdown to 1 and dims the entry.  The call that returns `FALSE` and commits is
the fifth. -/
theorem single_key_no_commit_on_fourth_tick :
    (run idle_world (single_key_trace ['a', 'b'] 4)).2 = [true, true, true, true] ∧
    (run idle_world (single_key_trace ['a', 'b'] 4)).1.collection = idle_world.collection ∧
    (run idle_world (single_key_trace ['a', 'b'] 4)).1.d.time_out = 1 ∧
    (run idle_world (single_key_trace ['a', 'b'] 5)).2 = [true, true, true, true, false] ∧
    (run idle_world (single_key_trace ['a', 'b'] 5)).1.collection.text_filter =
      some ['%', 'a', 'b', '%'] := by
  decide

/-- C11 (amended): starting idle (countdown 0), after one keystroke at t = 0 and no
further keystroke, with ticks at t = 0.1, 0.2, ... s, the fourth tick (t = 0.4 s) sets
the countdown to 1 and marks the entry busy without committing, and the commit happens
on the fifth tick (t = 0.5 s). -/
theorem single_key_commit_on_fifth_tick (w : World) (text : CStr)
    (hidle : w.d.time_out = 0) :
    (run w (single_key_trace text 4)).2 = [true, true, true, true] ∧
    (run w (single_key_trace text 4)).1.d.time_out = 1 ∧
    (run w (single_key_trace text 4)).1.d.text_dimmed = true ∧
    (run w (single_key_trace text 4)).1.collection = w.collection ∧
    (run w (single_key_trace text 5)).2 = [true, true, true, true, false] ∧
    (run w (single_key_trace text 5)).1.d.time_out = 0 ∧
    (run w (single_key_trace text 5)).1.d.text_dimmed = false ∧
    (run w (single_key_trace text 5)).1.collection = committed w.collection text := by
  obtain ⟨⟨tmo, lk, z, txt, dim⟩, coll, tm⟩ := w
  simp only at hidle
  subst hidle
  have h4 := run_single_key_four lk z txt dim coll tm text
  have h5 : run ⟨⟨0, lk, z, txt, dim⟩, coll, tm⟩ (single_key_trace text 5) =
      (⟨⟨0, 400, z, text, false⟩, committed coll text, tm⟩,
        [true, true, true, true, false]) := by
    rw [single_key_trace_eq, run_append, h4]
    simp only
    rw [run_cons_some _ _ _ _ _ (dispatch_tick_commit 400 z text true coll tm _
      (by norm_num))]
    simp [run]
  rw [h4, h5]
  simp

/-- Witness for `single_key_commit_on_fifth_tick` on the idle panel. -/
theorem single_key_commit_on_fifth_tick_witness :
    (run idle_world (single_key_trace ['a', 'b'] 5)).2 = [true, true, true, true, false] :=
  (single_key_commit_on_fifth_tick idle_world ['a', 'b'] rfl).2.2.2.2.1

/-- C12: starting idle, with a keystroke every 0.1 s from t = 0 on and a tick every
0.1 s, the tick handler returns `TRUE` on each of the first fourteen ticks and `FALSE`
(commit) on the fifteenth; the entry is marked busy on the fourteenth tick and not
before; the fifteenth tick commits the encoding of the text then in the entry. -/
theorem continuous_typing_commit_on_fifteenth_tick (w : World) (texts : Nat → CStr)
    (hidle : w.d.time_out = 0) :
    (run w (continuous_typing_trace texts 15)).2 = List.replicate 14 true ++ [false] ∧
    (run w (continuous_typing_trace texts 13)).1.d.text_dimmed = w.d.text_dimmed ∧
    (run w (continuous_typing_trace texts 14)).1.d.text_dimmed = true ∧
    (run w (continuous_typing_trace texts 14)).1.d.time_out = 1 ∧
    (run w (continuous_typing_trace texts 14)).1.collection = w.collection ∧
    (run w (continuous_typing_trace texts 15)).1.d.time_out = 0 ∧
    (run w (continuous_typing_trace texts 15)).1.collection =
      committed w.collection (texts 14) := by
  obtain ⟨⟨tmo, lk, z, txt, dim⟩, coll, tm⟩ := w
  simp only at hidle
  subst hidle
  have h13 : run ⟨⟨0, lk, z, txt, dim⟩, coll, tm⟩ (continuous_typing_trace texts 13) =
      (⟨⟨2, 1200, z, texts 12, dim⟩, coll, tm + 1⟩, List.replicate 13 true) := by
    have h := run_continuous_typing_quiet texts lk z txt dim coll tm 12 (by decide)
    have e1 : (14 : Int) - ((12 : Nat) : Int) = 2 := by norm_num
    have e2 : (100 : Int) * ((12 : Nat) : Int) = 1200 := by norm_num
    rw [e1, e2] at h
    exact h
  have h14 : run ⟨⟨0, lk, z, txt, dim⟩, coll, tm⟩ (continuous_typing_trace texts 14) =
      (⟨⟨1, 1300, z, texts 13, true⟩, coll, tm + 1⟩, List.replicate 14 true) := by
    rw [continuous_typing_trace, run_append, h13]
    simp only [typing_round]
    rw [run_cons_none _ _ _ _ (dispatch_key_counting _ _ z _ dim coll (tm + 1) _ (texts 13)
        (by norm_num)),
      run_cons_some _ _ _ _ _ (dispatch_tick_busy _ z (texts 13) dim coll tm _
        (by norm_num))]
    simp [run, List.replicate_succ']
  have h15 : run ⟨⟨0, lk, z, txt, dim⟩, coll, tm⟩ (continuous_typing_trace texts 15) =
      (⟨⟨0, 1400, z, texts 14, false⟩, committed coll (texts 14), tm⟩,
        List.replicate 14 true ++ [false]) := by
    rw [continuous_typing_trace, run_append, h14]
    simp only [typing_round]
    rw [run_cons_none _ _ _ _ (dispatch_key_counting _ _ z _ true coll (tm + 1) _ (texts 14)
        (by norm_num)),
      run_cons_some _ _ _ _ _ (dispatch_tick_commit _ z (texts 14) true coll tm _
        (by norm_num))]
    simp [run]
  rw [h13, h14, h15]
  simp

/-- Witness for `continuous_typing_commit_on_fifteenth_tick` on the idle panel, the
`i`-th keystroke leaving `i + 1` letters `a` in the entry. -/
theorem continuous_typing_commit_on_fifteenth_tick_witness :
    (run idle_world (continuous_typing_trace (fun i => List.replicate (i + 1) 'a') 15)).2 =
      List.replicate 14 true ++ [false] :=
  (continuous_typing_commit_on_fifteenth_tick idle_world
    (fun i => List.replicate (i + 1) 'a') rfl).1


/-- The tick handler on a panel with countdown 1, less than 0.4 s after the last
keystroke: the commit branch. -/
theorem text_entry_changed_wait_commit (w : World) (clock : Int)
    (h1 : w.d.time_out = 1) (hq : clock - w.d.last_key_time < 400) :
    _text_entry_changed_wait clock w =
      ({ w with d := { w.d with time_out := 0, text_dimmed := false },
                collection := committed w.collection w.d.text }, false) := by
  obtain ⟨⟨tmo, lk, z, txt, dim⟩, coll, tm⟩ := w
  simp only at h1 hq
  subst h1
  have hn : ¬ (400 ≤ clock - lk) := by omega
  simp [_text_entry_changed_wait, _set_widget_dimmed, hn, committed]

theorem committed_text_filter (c : Collection) (text : CStr) :
    (committed c text).text_filter = _encode_text_filter text := by
  unfold committed
  by_cases h : dt_collection_get_text_filter c = _encode_text_filter text
  · simp only [h, ne_eq, not_true_eq_false, if_false]
    exact h
  · simp [h, dt_collection_update_query, dt_collection_set_text_filter]

theorem committed_of_eq (c : Collection) (text : CStr)
    (h : c.text_filter = _encode_text_filter text) : committed c text = c := by
  unfold committed
  simp [dt_collection_get_text_filter, h]

theorem committed_reloads_le (c : Collection) (text : CStr) :
    (committed c text).reloads ≤ c.reloads + 1 := by
  unfold committed
  split <;> simp [dt_collection_update_query, dt_collection_set_text_filter]

/-- C13: commit idempotence.  For every entry text and committed filter, when the
commit branch of `_text_entry_changed_wait` runs on a panel `w` and then again on a
panel `w2` that has the same entry text and the collection left by the first run, the
second run leaves the collection as it is (no set of the text filter, no reload
request); the filter after both runs is the encoding of the entry text and at most one
reload has been requested in all. -/
theorem commit_twice_updates_once (w w2 : World) (clock clock2 : Int)
    (h1 : w.d.time_out = 1) (hq : clock - w.d.last_key_time < 400)
    (h2 : w2.d.time_out = 1) (hq2 : clock2 - w2.d.last_key_time < 400)
    (htext : w2.d.text = w.d.text)
    (hcoll : w2.collection = (_text_entry_changed_wait clock w).1.collection) :
    (_text_entry_changed_wait clock w).2 = false ∧
    (_text_entry_changed_wait clock2 w2).2 = false ∧
    (_text_entry_changed_wait clock2 w2).1.collection =
      (_text_entry_changed_wait clock w).1.collection ∧
    (_text_entry_changed_wait clock2 w2).1.collection.text_filter =
      _encode_text_filter w.d.text ∧
    (_text_entry_changed_wait clock2 w2).1.collection.reloads ≤ w.collection.reloads + 1 := by
  rw [text_entry_changed_wait_commit w clock h1 hq] at hcoll ⊢
  rw [text_entry_changed_wait_commit w2 clock2 h2 hq2]
  simp only at hcoll ⊢
  have hsame : committed w2.collection w2.d.text = committed w.collection w.d.text := by
    rw [hcoll, htext]
    exact committed_of_eq _ _ (committed_text_filter _ _)
  rw [hsame]
  exact ⟨trivial, trivial, rfl, committed_text_filter _ _, committed_reloads_le _ _⟩

/-- Witness for `commit_twice_updates_once`: the entry holds `ab`, nothing is committed
yet; the first run commits `%ab%` with one reload, the second changes nothing. -/
theorem commit_twice_updates_once_witness :
    (_text_entry_changed_wait 200
        ⟨⟨1, 0, 0, ['a', 'b'], true⟩, ⟨some ['%', 'a', 'b', '%'], 0, 1⟩, 1⟩).1.collection =
      (_text_entry_changed_wait 100
        ⟨⟨1, 0, 0, ['a', 'b'], true⟩, ⟨none, 0, 0⟩, 1⟩).1.collection :=
  (commit_twice_updates_once
    ⟨⟨1, 0, 0, ['a', 'b'], true⟩, ⟨none, 0, 0⟩, 1⟩
    ⟨⟨1, 0, 0, ['a', 'b'], true⟩, ⟨some ['%', 'a', 'b', '%'], 0, 1⟩, 1⟩
    100 200 rfl (by decide) rfl (by decide) rfl (by decide)).2.2.1

/-! ## Culling mode -/

/-- C14: on entering culling mode with `n ≥ 1` selected images, the lighttable zoom
level is set to `n` when `n ≤ 6`, to 4 when `n` is 7 or 8 and to 6 when `n ≥ 9`, and
the zoom level that was current before is saved in `zoom_level`. -/
theorem culling_mode_zoom (n : Nat) (d : dt_lib_tool_filter_t) (lt : Lighttable)
    (c : Collection) (hn : 1 ≤ n) :
    (n ≤ 6 → (_culling_mode true n d lt c).2.1.zoom = (n : Int)) ∧
    (n = 7 ∨ n = 8 → (_culling_mode true n d lt c).2.1.zoom = 4) ∧
    (9 ≤ n → (_culling_mode true n d lt c).2.1.zoom = 6) ∧
    (_culling_mode true n d lt c).1.zoom_level = lt.zoom ∧
    (_culling_mode true n d lt c).2.1.culling_mode = true := by
  have hmax : MAX n 1 = n := by
    unfold MAX
    split <;> omega
  simp only [_culling_mode, if_true, hmax, dt_view_lighttable_set_zoom,
    dt_view_lighttable_get_zoom]
  refine ⟨?_, ?_, ?_, trivial, trivial⟩
  · intro h
    have h7 : n < 7 := by omega
    simp [h7]
  · intro h
    have h7 : ¬ n < 7 := by omega
    have h9 : n < 9 := by omega
    simp [h7, h9]
  · intro h
    have h7 : ¬ n < 7 := by omega
    have h9 : ¬ n < 9 := by omega
    simp [h7, h9]

/-- Witness for `culling_mode_zoom`: seven selected images give zoom level 4. -/
theorem culling_mode_zoom_witness :
    (_culling_mode true 7 idle_world.d ⟨false, 3⟩ idle_world.collection).2.1.zoom = 4 :=
  (culling_mode_zoom 7 idle_world.d ⟨false, 3⟩ idle_world.collection (by decide)).2.1
    (Or.inl rfl)

/-! ## Reset actions -/

theorem launch_text_query_collection (now : Int) (w : World) :
    (_launch_text_query now w).collection = w.collection := by
  unfold _launch_text_query
  simp only
  split <;> rfl

theorem reset_text_filter_collection (now : Int) (w : World) :
    (_reset_text_filter now w).collection =
      dt_collection_set_text_filter w.collection (some []) := by
  unfold _reset_text_filter gtk_entry_set_text_empty
  simp only
  split
  · rfl
  · rw [_text_entry_changed, launch_text_query_collection]

/-- C15 (counterexample): on a panel whose entry holds `ab` with `%ab%` committed, the
clear action leaves the empty string as committed text filter, which is not the `NULL`
pattern the encoder returns for the empty entry text. -/
theorem reset_text_entry_not_null_pattern :
    (_reset_text_entry 5000
      ⟨⟨0, 1500, 0, ['a', 'b'], false⟩, ⟨some ['%', 'a', 'b', '%'], 0x80000000, 1⟩,
        0⟩).collection.text_filter = some [] ∧
    _encode_text_filter [] = none ∧
    (_reset_text_entry 5000
      ⟨⟨0, 1500, 0, ['a', 'b'], false⟩, ⟨some ['%', 'a', 'b', '%'], 0x80000000, 1⟩,
        0⟩).collection.text_filter ≠ _encode_text_filter [] := by
  decide

/-- C15 (amended): the clear action sets the committed text filter to the empty string,
a non-`NULL` pattern of length 0 and not the `NULL` that the encoder yields for the
empty entry text, and requests the query reload within the same call, whatever the
value of the debounce countdown. -/
theorem reset_text_entry_clears (now : Int) (w : World) :
    (_reset_text_entry now w).collection.text_filter = some [] ∧
    (_reset_text_entry now w).collection.text_filter ≠ _encode_text_filter [] ∧
    (_reset_text_entry now w).collection.reloads = w.collection.reloads + 1 := by
  have h : (_reset_text_entry now w).collection =
      dt_collection_update_query (dt_collection_set_text_filter w.collection (some [])) := by
    unfold _reset_text_entry
    simp only
    rw [reset_text_filter_collection]
  rw [h]
  refine ⟨rfl, ?_, rfl⟩
  have he : _encode_text_filter [] = none := by decide
  rw [he]
  simp [dt_collection_update_query, dt_collection_set_text_filter]

/-- Emptying a non-empty entry through the clear action runs the keystroke handler: on
an idle panel the countdown restarts at 15 and a tick is registered. -/
theorem reset_text_entry_restarts_countdown (now : Int) (w : World)
    (htext : w.d.text ≠ []) (hidle : w.d.time_out = 0) :
    (_reset_text_entry now w).d.time_out = 15 ∧
    (_reset_text_entry now w).d.last_key_time = now ∧
    (_reset_text_entry now w).d.text = [] ∧
    (_reset_text_entry now w).timers = w.timers + 1 := by
  simp [_reset_text_entry, _reset_text_filter, gtk_entry_set_text_empty, htext,
    _text_entry_changed, _launch_text_query, hidle]

/-- Witness for `reset_text_entry_restarts_countdown`. -/
theorem reset_text_entry_restarts_countdown_witness :
    (_reset_text_entry 5000
      ⟨⟨0, 1500, 0, ['a', 'b'], false⟩, ⟨some ['%', 'a', 'b', '%'], 0x80000000, 1⟩,
        0⟩).d.time_out = 15 :=
  (reset_text_entry_restarts_countdown 5000
    ⟨⟨0, 1500, 0, ['a', 'b'], false⟩, ⟨some ['%', 'a', 'b', '%'], 0x80000000, 1⟩, 0⟩
    (by decide) rfl).1

/-! ## Text filter: decoding -/

/-- C16 (counterexample): the stored pattern `%` is decoded to a single double quote,
whereas the description (no quote on either side, the `%` removed) gives the empty
text. -/
theorem decode_single_percent :
    _decode_text_filter ['%'] = ['"'] ∧ decode_described ['%'] = [] ∧
    _decode_text_filter ['%'] ≠ decode_described ['%'] := by
  decide

/-- C16 (amended): the decoding of the empty pattern is the empty text; for every
non-empty stored pattern `t` other than the single character `%`, the decoding is a
double quote if `t` does not start with `%`, followed by `t` with one leading `%`
removed if present and one trailing `%` removed if present, followed by a double quote
if `t` does not end with `%`; the decoding of the single character `%` is a single
double quote. -/
theorem decode_as_described (t : CStr) (hne : t ≠ []) (hp : t ≠ ['%']) :
    _decode_text_filter [] = [] ∧
    _decode_text_filter t = decode_described t ∧
    _decode_text_filter ['%'] = ['"'] := by
  refine ⟨by decide, ?_, by decide⟩
  cases t with
  | nil => exact absurd rfl hne
  | cons a r =>
    rw [decode_cons]
    unfold decode_described
    rcases List.eq_nil_or_concat r with hr | ⟨m, b, hr⟩
    · subst hr
      have ha : a ≠ '%' := by
        intro h; apply hp; rw [h]
      simp [ha]
    · have hr2 : r = m ++ [b] := by rw [hr]; simp
      subst hr2
      clear hr
      by_cases ha : a = '%' <;> by_cases hb : b = '%' <;>
        simp [ha, hb, getLast?_cons_concat, dropLast_cons_concat, List.dropLast_concat]

/-- Witness for `decode_as_described`: the pattern `ab%` is decoded to quote, `ab`. -/
theorem decode_as_described_witness :
    _decode_text_filter ['a', 'b', '%'] = decode_described ['a', 'b', '%'] :=
  (decode_as_described ['a', 'b', '%'] (by decide) (by decide)).2.1

/-! ## Debounce: the tick step -/

/-- C17 (evaluation at the failing input): on the panel reached after the fourteenth
tick of `late_pause_trace` (countdown 1, last keystroke at 1.05 s), the tick at 1.5 s
does not commit: it returns `TRUE`, leaves the countdown at 1, moves `last_key_time`
to 1.5 s and leaves the committed filter untouched. -/
theorem tick_with_countdown_one_does_not_commit :
    (run idle_world (late_pause_trace.take 18)).1.d.time_out = 1 ∧
    (run idle_world (late_pause_trace.take 18)).1.d.last_key_time = 1050 ∧
    (_text_entry_changed_wait 1500 (run idle_world (late_pause_trace.take 18)).1).2 = true ∧
    (_text_entry_changed_wait 1500
      (run idle_world (late_pause_trace.take 18)).1).1.d.time_out = 1 ∧
    (_text_entry_changed_wait 1500
      (run idle_world (late_pause_trace.take 18)).1).1.d.last_key_time = 1500 ∧
    (_text_entry_changed_wait 1500
      (run idle_world (late_pause_trace.take 18)).1).1.collection = idle_world.collection := by
  decide

/-! ## Rating reset -/

/-- C18: the `smart_filter` flag of the reset has no effect.  For every current
selection of the rating dropdown, `_reset_stars_filter` with `smart_filter = TRUE`
sets the dropdown to item 0, as it does with `smart_filter = FALSE`, the new rating
being the lesser of 0 and a non-negative rating; hence `_lib_filter_reset` gives the
same result for both values of the flag. -/
theorem reset_stars_filter_ignores_smart_filter (stars : Int) (w : World) (now : Int) :
    _reset_stars_filter stars true = 0 ∧
    _reset_stars_filter stars false = 0 ∧
    _reset_stars_filter stars true = _reset_stars_filter stars false ∧
    _lib_filter_reset now stars w true = _lib_filter_reset now stars w false := by
  have ht : _reset_stars_filter stars true = 0 := by
    unfold _reset_stars_filter MIN
    simp only [if_true]
    by_cases h : stars ≥ 2 ∧ stars ≤ 6
    · have h1 : (0 : Int) < stars - 1 := by omega
      simp [h, h1]
    · simp [h]
  have hf : _reset_stars_filter stars false = 0 := by
    simp [_reset_stars_filter]
  refine ⟨ht, hf, by rw [ht, hf], ?_⟩
  unfold _lib_filter_reset
  rw [ht, hf]

end Filter
